import Mathlib

/-!
Verification of the addon-metadata-operator repository: a shallow embedding of
the rule-filter DSL (`pkg/types/csv_rbac.go`), the CLI validator-filter
composition (`cmd/mtcli/validate/cmd.go`), the concurrent bundle extractor
(`pkg/extractor`), and the am0015 validator
(`pkg/validator/am0015/csv_deployments.go`), together with theorems settling
the specification claims about them.

Go conventions mapped to Lean:
- a Go pointer that may be nil is `Option _`;
- a Go `(T, error)` pair is `Option T × Option String` when both components
  matter, or `Except String T` when the Go code always returns exactly one of
  the two;
- a Go `panic` is the `none` of an `Option` result (for `eval`) or the
  `RunOutcome.panics` constructor (for validator runs);
- external collaborators (image parser, index reader, bundle fetcher, CSV
  accessors, the deployment linter) are taken as function parameters;
- goroutine completion order is an explicit `order : List Nat` parameter, a
  permutation of the slot indices; each concurrent unit's effect is replayed
  in that order.
-/

namespace AddonMetadata

/-! ## Rule-filter DSL: `pkg/types/csv_rbac.go` -/

/-- Operator constant `InOperator` from `csv_rbac.go`. -/
def InOperator : String := "IN"

/-- Operator constant `NotInOperator` from `csv_rbac.go`. -/
def NotInOperator : String := "NOT_IN"

/-- Operator constant `EqualsOperator` from `csv_rbac.go`. -/
def EqualsOperator : String := "EQUAL"

/-- Operator constant `NotEqualOperator` from `csv_rbac.go`. -/
def NotEqualOperator : String := "NOT_EQUAL"

/-- Operator constant `ExistsOperator` from `csv_rbac.go`. -/
def ExistsOperator : String := "EXISTS"

/-- Operator constant `DoesNotExistOperator` from `csv_rbac.go`. -/
def DoesNotExistOperator : String := "DOES_NOT_EXIST"

/-- Operator constant `AnyOperator` from `csv_rbac.go`. -/
def AnyOperator : String := "ANY"

/-- `FilterParams` from `csv_rbac.go`: the `Args` set and the operator name.
The Go `Operator` type is a string type, so `OperatorName` is a `String`. -/
structure FilterParams where
  Args : List String
  OperatorName : String
deriving DecidableEq

/-- `includes(items, itemsToBePresent)` from `csv_rbac.go`: every element of
`itemsToBePresent` is a member of `items`. The Go code materialises `items`
into a hash set (`sliceToSet`) before the membership tests; set membership
coincides with list membership, embedded here as `List.contains`. -/
def includes (items itemsToBePresent : List String) : Bool :=
  itemsToBePresent.all (fun item => items.contains item)

/-- The sort performed by Go's `sort.Strings` on a copied slice, embedded as
insertion sort under the total order on strings. -/
def sortStrings (l : List String) : List String :=
  l.insertionSort (· ≤ ·)

/-- `equal(a, b)` from `csv_rbac.go`: differing lengths are never equal;
otherwise both slices are copied, sorted with `sort.Strings`, and compared
element by element, which is exactly equality of the sorted lists. -/
def equal (a b : List String) : Bool :=
  if a.length ≠ b.length then false
  else sortStrings a == sortStrings b

/-- `any(a, b)` from `csv_rbac.go`: checks if any element of `b` is present in
`a` (again via the `sliceToSet` hash set, embedded as list membership). -/
def anyPresent (a b : List String) : Bool :=
  b.any (fun item => a.contains item)

/-- `eval(ruleArgs, params)` from `csv_rbac.go`: the operator dispatch switch.
The `default` branch of the Go switch is `panic(...)`, embedded as `none`;
every recognised operator yields `some` of the computed boolean. -/
def eval (ruleArgs : List String) (params : FilterParams) : Option Bool :=
  if params.OperatorName = InOperator then some (includes ruleArgs params.Args)
  else if params.OperatorName = NotInOperator then some (!includes ruleArgs params.Args)
  else if params.OperatorName = EqualsOperator then some (equal ruleArgs params.Args)
  else if params.OperatorName = NotEqualOperator then some (!equal ruleArgs params.Args)
  else if params.OperatorName = ExistsOperator then some (decide (ruleArgs.length > 0))
  else if params.OperatorName = DoesNotExistOperator then some (decide (ruleArgs.length = 0))
  else if params.OperatorName = AnyOperator then some (anyPresent ruleArgs params.Args)
  else none

/-- `rbac.PolicyRule`: the five attribute-value sequences the DSL can select. -/
structure PolicyRule where
  APIGroups : List String
  Resources : List String
  ResourceNames : List String
  Verbs : List String
  NonResourceURLs : List String
deriving DecidableEq

/-- Which concrete `Filter` struct of `csv_rbac.go` an `AttributeFilter`
instance is (`APIGroupFilter`, `ResourcesFilter`, `ResourceNamesFilter`,
`VerbsFilter`, `NonResourceURLsFilter`): each selects one rule attribute. -/
inductive AttrSel where
  | apiGroups
  | resources
  | resourceNames
  | verbs
  | nonResourceURLs
deriving DecidableEq

/-- The `concernedRuleAttrs` selected by each concrete filter type. -/
def selAttrs : AttrSel → PolicyRule → List String
  | .apiGroups, r => r.APIGroups
  | .resources, r => r.Resources
  | .resourceNames, r => r.ResourceNames
  | .verbs, r => r.Verbs
  | .nonResourceURLs, r => r.NonResourceURLs

/-- A value of the `Filter` interface of `csv_rbac.go`: one of the five
attribute filter structs, each holding its `FilterParams`. -/
structure AttributeFilter where
  sel : AttrSel
  Params : FilterParams
deriving DecidableEq

/-- The `Filter` method shared by the five attribute filter structs: evaluate
`eval` on the selected attributes; on `true` return the rule, on `false`
return Go `nil`. The outer `Option` is the panic of `eval`'s default branch:
`none` = panicked, `some none` = returned nil, `some (some r)` = returned r. -/
def AttributeFilter.Filter (f : AttributeFilter) (rule : PolicyRule) : Option (Option PolicyRule) :=
  match eval (selAttrs f.sel rule) f.Params with
  | none => none
  | some true => some (some rule)
  | some false => some none

/-- `Rule` from `csv_rbac.go`: an embedded `rbac.PolicyRule` plus a name used
in tests. -/
structure Rule where
  policyRule : PolicyRule
  name : String
deriving DecidableEq

/-- `Permission` from `csv_rbac.go`. -/
structure Permission where
  ServiceAccountName : String
  Rules : List Rule
deriving DecidableEq

/-- Permission-type constant `AllPermissionType` from `csv_rbac.go`. -/
def AllPermissionType : String := "all"

/-- Permission-type constant `NameSpacedPermissionType` from `csv_rbac.go`. -/
def NameSpacedPermissionType : String := "namespaced"

/-- Permission-type constant `ClusterPermissionType` from `csv_rbac.go`. -/
def ClusterPermissionType : String := "clusterScoped"

/-- `CSVPermissions` from `csv_rbac.go`. -/
structure CSVPermissions where
  ClusterPermissions : List Permission
  Permissions : List Permission
deriving DecidableEq

/-- `RuleFilter` from `csv_rbac.go`: a permission type (a Go string type) and
an ordered sequence of attribute filters. -/
structure RuleFilter where
  PermissionType : String
  Filters : List AttributeFilter
deriving DecidableEq

/-- `RuleFilter.GetRelevantPermissions` from `csv_rbac.go`: the switch over
the permission type; `append(cp.ClusterPermissions, cp.Permissions...)` for
`all`, the respective group for the scoped types, and the empty slice for the
default branch. -/
def RuleFilter.GetRelevantPermissions (r : RuleFilter) (cp : CSVPermissions) : List Permission :=
  if r.PermissionType = AllPermissionType then cp.ClusterPermissions ++ cp.Permissions
  else if r.PermissionType = NameSpacedPermissionType then cp.Permissions
  else if r.PermissionType = ClusterPermissionType then cp.ClusterPermissions
  else []

/-- The loop body of `RuleFilter.Run`: apply each filter in sequence; a filter
returning nil short-circuits the whole run to nil; a filter panic propagates. -/
def runFiltersAux : List AttributeFilter → PolicyRule → Option (Option PolicyRule)
  | [], rule => some (some rule)
  | f :: fs, rule =>
    match f.Filter rule with
    | none => none
    | some none => some none
    | some (some _) => runFiltersAux fs rule

/-- `RuleFilter.Run` from `csv_rbac.go` (for a non-nil rule pointer): with no
filters the rule is returned unchanged, otherwise every filter must pass. -/
def RuleFilter.Run (r : RuleFilter) (rule : PolicyRule) : Option (Option PolicyRule) :=
  if r.Filters.length = 0 then some (some rule) else runFiltersAux r.Filters rule

/-- The inner loop of `CSVPermissions.FilterRules` over one permission's
rules: keep the rules for which `ruleFilter.Run` does not return nil,
propagating any `eval` panic. -/
def filterPermRules (rf : RuleFilter) : List Rule → Option (List Rule)
  | [] => some []
  | rule :: rest =>
    match rf.Run rule.policyRule with
    | none => none
    | some none => filterPermRules rf rest
    | some (some _) => (filterPermRules rf rest).map (rule :: ·)

/-- The outer loop of `CSVPermissions.FilterRules` over the relevant
permissions. -/
def filterPermsRules (rf : RuleFilter) : List Permission → Option (List Rule)
  | [] => some []
  | perm :: rest =>
    match filterPermRules rf perm.Rules with
    | none => none
    | some rs => (filterPermsRules rf rest).map (rs ++ ·)

/-- `CSVPermissions.FilterRules` from `csv_rbac.go`: returns the list of rules
of the relevant permissions matching every attribute filter; `none` models a
panic escaping from `eval`. -/
def CSVPermissions.FilterRules (cp : CSVPermissions) (rf : RuleFilter) : Option (List Rule) :=
  filterPermsRules rf (rf.GetRelevantPermissions cp)

/-! ## Concurrent extractor: `pkg/extractor` (src/unnamed/part_001, second segment) -/

/-- The error values produced by the extractor's own code, plus wrappers for
errors of the external collaborators. -/
inductive ExtractorErr where
  | taglessImage
  | emptyIndexImage
  | emptyPkgName
  | parseFailure (msg : String)
  | extractFailure (msg : String)
deriving DecidableEq

/-- `isTaglessImage` from the extractor: `strings.SplitN(indexImage, ":", 2)`
has fewer than two parts exactly when the reference contains no ':' at all. -/
def isTaglessImage (indexImage : String) : Bool :=
  !(indexImage.toList.contains ':')

/-- `validateIndexImage` from the extractor. The external image-reference
parser (`imageparser.Parse` of github.com/novln/docker-parser) is a
parameter. `none` means the reference validated. -/
def validateIndexImage (parseImageRef : String → Except String Unit) (indexImage : String) :
    Option ExtractorErr :=
  if indexImage = "" then some .emptyIndexImage
  else if isTaglessImage indexImage then some .taglessImage
  else match parseImageRef indexImage with
    | .error e => some (.parseFailure e)
    | .ok _ => none

/-- The effect of the goroutine owning slot `i` in
`extractBundlesConcurrent`: `bundle, err := e.Bundle.Extract(ctx, bundleImage);
if err == nil { res[i] = bundle }`. A failed fetch leaves the slot untouched
(the pre-sized slice holds nil pointers, i.e. `none`). -/
def extractStep {B : Type} (fetch : String → Except ExtractorErr B) (bundleImages : List String)
    (slots : List (Option B)) (i : Nat) : List (Option B) :=
  match bundleImages[i]? with
  | none => slots
  | some img =>
    match fetch img with
    | .ok bundle => slots.set i (some bundle)
    | .error _ => slots

/-- The slot contents of `res` after all goroutines have completed, replaying
each unit's write in completion order `order` over the pre-sized nil slice. -/
def writeSlots {B : Type} (fetch : String → Except ExtractorErr B) (bundleImages : List String)
    (order : List Nat) : List (Option B) :=
  order.foldl (extractStep fetch bundleImages) (List.replicate bundleImages.length none)

/-- The error returned by `errgroup.Group.Wait`: the first non-nil error in
goroutine completion order (`none` when every unit succeeded). Cancellation
after that first error only affects later units whose errors and slots `Wait`
and the caller discard anyway, so it needs no separate modelling. -/
def firstErr {B : Type} (fetch : String → Except ExtractorErr B) (bundleImages : List String) :
    List Nat → Option ExtractorErr
  | [] => none
  | i :: rest =>
    match bundleImages[i]? with
    | none => firstErr fetch bundleImages rest
    | some img =>
      match fetch img with
      | .error e => some e
      | .ok _ => firstErr fetch bundleImages rest

/-- `MainExtractor.extractBundlesConcurrent`: fan out one unit per bundle
image, wait; on the first error return `(nil, err)` discarding all slots,
otherwise return the index-aligned slot slice with no error. The result pair
mirrors Go's `([]*registry.Bundle, error)`: `none` in the first component is a
nil slice. -/
def extractBundlesConcurrent {B : Type} (fetch : String → Except ExtractorErr B)
    (order : List Nat) (bundleImages : List String) :
    Option (List (Option B)) × Option ExtractorErr :=
  match firstErr fetch bundleImages order with
  | some e => (none, some e)
  | none => (some (writeSlots fetch bundleImages order), none)

/-- `MainExtractor.ExtractBundles`: validate the index image (a tagless image
is a non-error skip returning `(nil, nil)`), reject an empty package name,
resolve the bundle-image list through the index extractor (a parameter), then
fetch concurrently. -/
def ExtractBundles {B : Type} (parseImageRef : String → Except String Unit)
    (extractBundleImages : String → String → Except ExtractorErr (List String))
    (fetch : String → Except ExtractorErr B) (order : List Nat)
    (indexImage pkgName : String) : Option (List (Option B)) × Option ExtractorErr :=
  match validateIndexImage parseImageRef indexImage with
  | some .taglessImage => (none, none)
  | some e => (none, some e)
  | none =>
    if pkgName = "" then (none, some .emptyPkgName)
    else match extractBundleImages indexImage pkgName with
      | .error e => (none, some e)
      | .ok imgs => extractBundlesConcurrent fetch order imgs

/-- `MainExtractor.ExtractAllBundles`: as `ExtractBundles` but resolving the
bundle images of every package and without the package-name check. -/
def ExtractAllBundles {B : Type} (parseImageRef : String → Except String Unit)
    (extractAllBundleImages : String → Except ExtractorErr (List String))
    (fetch : String → Except ExtractorErr B) (order : List Nat)
    (indexImage : String) : Option (List (Option B)) × Option ExtractorErr :=
  match validateIndexImage parseImageRef indexImage with
  | some .taglessImage => (none, none)
  | some e => (none, some e)
  | none =>
    match extractAllBundleImages indexImage with
    | .error e => (none, some e)
    | .ok imgs => extractBundlesConcurrent fetch order imgs

/-! ## CLI filter composition: `cmd/mtcli/validate/cmd.go` -/

/-- Modelled from the spec: the Filter algebra of `pkg/validator` (not under
src/), §4.2 — primitives `FilterCodes`, `FilterStages`, `NoFilter` and
combinators `And`, `Or`, `Not` over validator codes and stages — represented
syntactically so that the composition built by `generateFilter` is visible. -/
inductive VFilter where
  | noFilter
  | filterCodes (codes : List Nat)
  | filterStages (stages : List String)
  | and (f g : VFilter)
  | or (f g : VFilter)
  | not (f : VFilter)
deriving DecidableEq

/-- `generateFilter(disabled, enabled, stages)` from `cmd.go`. The code-list
and stage-list parsers (which delegate to `validator.ParseCode` /
`validator.ParseStage`, not under src/) are parameters. The Go function
returns `(nil, nil)` when no flag is supplied, embedded as `Except.ok none`;
otherwise the `filter` variable starts at `NoFilter` and the three `if`
blocks of the source are replayed in order, each parse error returning
immediately. -/
def generateFilter (parseCodeList : String → Except String (List Nat))
    (parseStageList : String → Except String (List String))
    (disabled enabled stages : String) : Except String (Option VFilter) :=
  if disabled = "" ∧ enabled = "" ∧ stages = "" then Except.ok none else
  let afterDisabled : Except String VFilter :=
    if disabled = "" then .ok .noFilter
    else match parseCodeList disabled with
      | .error e => .error ("unable to process disabled option argument: " ++ e)
      | .ok codes => .ok (.not (.filterCodes codes))
  let afterEnabled : Except String VFilter :=
    match afterDisabled with
    | .error e => .error e
    | .ok f =>
      if enabled = "" then .ok f
      else match parseCodeList enabled with
        | .error e => .error ("unable to process enabled option argument: " ++ e)
        | .ok codes => .ok (.filterCodes codes)
  match afterEnabled with
  | .error e => .error e
  | .ok f =>
    if stages = "" then .ok (some f)
    else match parseStageList stages with
      | .error e => .error ("unable to process stages option argument: " ++ e)
      | .ok stgs => .ok (some (.and f (.filterStages stgs)))

/-! ## am0015 validator: `pkg/validator/am0015/csv_deployments.go` -/

/-- The outcome of running Go code that may panic: either a returned value or
a runtime panic (nil-pointer dereference, index out of range). -/
inductive RunOutcome (R : Type) where
  | result (r : R)
  | panics
deriving DecidableEq

/-- The tri-state `validator.Result` as produced by `Base.Success`,
`Base.Fail(msgs...)` and `Base.Error(err)`. -/
inductive VResult where
  | success
  | fail (msgs : List String)
  | err (e : String)
deriving DecidableEq

/-- `getVersion(bundle)` from `csv_deployments.go`: obtain the CSV, obtain its
version and prefix it with `"v"`. The external accessors
`bundle.ClusterServiceVersion()` and `csv.GetVersion()` are parameters; their
Go error returns are `Except.error`. -/
def getVersionGo {B C : Type} (csvOf : B → Except String C) (getVer : C → Except String String)
    (bundle : B) : Except String String :=
  match csvOf bundle with
  | .error e => .error e
  | .ok csv =>
    match getVer csv with
    | .error e => .error e
    | .ok v => .ok ("v" ++ v)

/-- The `for _, bundle := range bundles[1:]` loop of `getLatestBundle`:
keep the bundle with the greater version according to `semver.Compare`
(`cmp`), replacing `latest` exactly when the comparison yields `1`. Returns
Go's `(*registry.Bundle, error)` pair. -/
def glbLoop {B : Type} (gv : B → Except String String) (cmp : String → String → Int)
    (latest : B) : List B → Option B × Option String
  | [] => (some latest, none)
  | bundle :: rest =>
    match gv bundle with
    | .error e => (none, some e)
    | .ok currVersion =>
      match gv latest with
      | .error e => (none, some e)
      | .ok currLatestVersion =>
        if cmp currVersion currLatestVersion = 1
        then glbLoop gv cmp bundle rest
        else glbLoop gv cmp latest rest

/-- `getLatestBundle(bundles)` from `csv_deployments.go`: a single bundle is
returned without inspecting its version; on an empty slice `bundles[0]`
panics with an index-out-of-range; otherwise the comparison loop runs. -/
def getLatestBundle {B : Type} (gv : B → Except String String) (cmp : String → String → Int) :
    List B → RunOutcome (Option B × Option String)
  | [] => .panics
  | [b] => .result (some b, none)
  | b :: rest => .result (glbLoop gv cmp b rest)

/-- `CSVDeployment.Run` from `csv_deployments.go`, with the external
collaborators as parameters: `csvOf` and `getVer` back `getVersion`, `csvOf`
is also called directly on the chosen bundle, `unmarshal` is
`json.Unmarshal(csv.Spec, &spec)` returning the resulting spec value together
with a possible error, `deploymentSpecs` projects
`spec.InstallStrategy.StrategySpec.DeploymentSpecs` and `lint` is
`c.linter.Lint(deployment).Reasons`.

The source's error branches build `c.Fail("Error while checking bundles")`
and `c.Error(err)` but do not return them; execution falls through. A nil
`bundle` (the error return of `getLatestBundle`) is then dereferenced by
`bundle.ClusterServiceVersion()`, and a nil `csv` (the error return of
`ClusterServiceVersion`) is dereferenced by `csv.Spec`; both are `panics`.
After a failed `json.Unmarshal` the loop runs on whatever `spec` holds. -/
def csvDeploymentRun {B C SpecT D : Type} (csvOf : B → Except String C)
    (getVer : C → Except String String) (cmp : String → String → Int)
    (unmarshal : C → SpecT × Option String) (deploymentSpecs : SpecT → List D)
    (lint : D → List String) (bundles : List B) : RunOutcome VResult :=
  match getLatestBundle (getVersionGo csvOf getVer) cmp bundles with
  | .panics => .panics
  | .result (bundleOpt, _glbErr) =>
    match bundleOpt with
    | none => .panics
    | some bundle =>
      match csvOf bundle with
      | .error _ => .panics
      | .ok csv =>
        let specAndErr := unmarshal csv
        let msgs := (deploymentSpecs specAndErr.1).flatMap lint
        .result (if msgs.length > 0 then .fail msgs else .success)

/-- Modelled from the spec: semantic-version comparison (§8, "the latest
bundle selection ... must select `1.2.0`") standing in for the external
`golang.org/x/mod/semver.Compare`, restricted to plain `vMAJOR.MINOR.PATCH`
numeric versions: the dot-separated numeric components are compared
lexicographically. -/
def verNumsAux : List Char → Nat → List Nat
  | [], acc => [acc]
  | c :: cs, acc =>
    if c = '.' then acc :: verNumsAux cs 0
    else verNumsAux cs (acc * 10 + (c.toNat - 48))

/-- The numeric components of a version string, after the leading `v`. -/
def semverParseNums (s : String) : List Nat :=
  match s.toList with
  | 'v' :: rest => verNumsAux rest 0
  | rest => verNumsAux rest 0

/-- Lexicographic comparison of numeric component lists, shorter-is-smaller. -/
def listCompareNat : List Nat → List Nat → Int
  | [], [] => 0
  | [], _ :: _ => -1
  | _ :: _, [] => 1
  | a :: as, b :: bs =>
    if a < b then -1
    else if b < a then 1
    else listCompareNat as bs

/-- The modelled `semver.Compare`. -/
def semverCmp (a b : String) : Int :=
  listCompareNat (semverParseNums a) (semverParseNums b)

/-! ## Lemmas about the rule-filter DSL -/

theorem includes_eq_true_iff (items toBe : List String) :
    includes items toBe = true ↔ ∀ x ∈ toBe, x ∈ items := by
  simp [includes]

theorem sortStrings_perm (l : List String) : (sortStrings l).Perm l :=
  List.perm_insertionSort _ l

theorem sortStrings_sorted (l : List String) : (sortStrings l).Sorted (· ≤ ·) :=
  List.sorted_insertionSort _ l

theorem equal_eq_true_iff (a b : List String) : equal a b = true ↔ a.Perm b := by
  unfold equal
  constructor
  · intro h
    by_cases hl : a.length ≠ b.length
    · simp [hl] at h
    · simp only [hl, if_false] at h
      have hs : sortStrings a = sortStrings b := by
        simpa using h
      exact ((sortStrings_perm a).symm.trans (hs ▸ sortStrings_perm b))
  · intro h
    have hlen : a.length = b.length := h.length_eq
    have hs : sortStrings a = sortStrings b :=
      List.eq_of_perm_of_sorted
        ((sortStrings_perm a).trans (h.trans (sortStrings_perm b).symm))
        (sortStrings_sorted a) (sortStrings_sorted b)
    simp [hlen, hs]

theorem eval_in (ruleArgs Args : List String) :
    eval ruleArgs ⟨Args, InOperator⟩ = some (includes ruleArgs Args) := rfl

theorem eval_not_in (ruleArgs Args : List String) :
    eval ruleArgs ⟨Args, NotInOperator⟩ = some (!includes ruleArgs Args) := rfl

theorem eval_equal (ruleArgs Args : List String) :
    eval ruleArgs ⟨Args, EqualsOperator⟩ = some (equal ruleArgs Args) := rfl

theorem eval_not_equal (ruleArgs Args : List String) :
    eval ruleArgs ⟨Args, NotEqualOperator⟩ = some (!equal ruleArgs Args) := rfl

theorem eval_any (ruleArgs Args : List String) :
    eval ruleArgs ⟨Args, AnyOperator⟩ = some (anyPresent ruleArgs Args) := rfl

theorem eval_unknown (ruleArgs : List String) (params : FilterParams)
    (h : params.OperatorName ∉ [InOperator, NotInOperator, EqualsOperator, NotEqualOperator,
      ExistsOperator, DoesNotExistOperator, AnyOperator]) :
    eval ruleArgs params = none := by
  simp only [List.mem_cons, List.mem_singleton, not_or] at h
  obtain ⟨h1, h2, h3, h4, h5, h6, h7⟩ := h
  simp [eval, h1, h2, h3, h4, h5, h6, h7]

/-! ## Claim theorems about the rule-filter DSL -/

/-- C1: the IN operator evaluates to true exactly when every element of the
filter's `Args` is present in the rule's attribute values (superset
direction); in particular `IN` over ruleArgs `["a","b","c"]` with Args
`["a","b"]` is true and over ruleArgs `["a"]` with Args `["a","b"]` is
false. -/
theorem c1_in_operator_superset :
    (∀ ruleArgs Args : List String,
      eval ruleArgs ⟨Args, InOperator⟩ = some true ↔ ∀ a ∈ Args, a ∈ ruleArgs) ∧
    eval ["a", "b", "c"] ⟨["a", "b"], InOperator⟩ = some true ∧
    eval ["a"] ⟨["a", "b"], InOperator⟩ = some false := by
  refine ⟨fun ruleArgs Args => ?_, by decide, by decide⟩
  rw [eval_in, Option.some_inj]
  exact includes_eq_true_iff ruleArgs Args

/-- C6 as stated is false: the EQUAL operator is not duplicate-independent
set equality. `ruleArgs = ["a","a","b"]` and `Args = ["a","b","b"]` have the
same length and the same elements (equal as sets), yet EQUAL evaluates to
false (sort-then-compare distinguishes the multiplicities). -/
theorem c6_counterexample :
    (["a", "a", "b"] : List String).length = (["a", "b", "b"] : List String).length ∧
    (∀ x : String, x ∈ (["a", "a", "b"] : List String) ↔ x ∈ (["a", "b", "b"] : List String)) ∧
    eval ["a", "a", "b"] ⟨["a", "b", "b"], EqualsOperator⟩ = some false := by
  refine ⟨rfl, ?_, ?_⟩
  · intro x
    constructor <;> intro h <;> simp at h ⊢ <;> tauto
  · rw [eval_equal, Option.some_inj]
    have hnp : ¬ (["a", "a", "b"] : List String).Perm ["a", "b", "b"] := by
      intro hp
      have hc := hp.count_eq "a"
      revert hc
      decide
    cases heq : equal ["a", "a", "b"] ["a", "b", "b"]
    · rfl
    · exact absurd ((equal_eq_true_iff _ _).mp heq) hnp

/-- C6 amended: the EQUAL operator compares the attribute values and `Args`
as multisets (sort-then-compare): it is true exactly when the two sequences
are permutations of each other, hence order-independent but sensitive to
duplicate multiplicities; sequences of differing lengths are never equal;
NOT_EQUAL is the exact boolean negation of EQUAL; and EQUAL over `["a","b"]`
and `["b","a"]` is true. -/
theorem c6_equal_multiset_semantics :
    (∀ a b : List String, eval a ⟨b, EqualsOperator⟩ = some true ↔ a.Perm b) ∧
    (∀ a b : List String,
      eval a ⟨b, NotEqualOperator⟩ = (eval a ⟨b, EqualsOperator⟩).map (fun x => !x)) ∧
    (∀ a b : List String, a.length ≠ b.length → eval a ⟨b, EqualsOperator⟩ = some false) ∧
    eval ["a", "b"] ⟨["b", "a"], EqualsOperator⟩ = some true := by
  refine ⟨fun a b => ?_, fun a b => ?_, fun a b h => ?_, ?_⟩
  · rw [eval_equal, Option.some_inj]
    exact equal_eq_true_iff a b
  · rw [eval_equal, eval_not_equal]
    rfl
  · rw [eval_equal, Option.some_inj]
    simp [equal, h]
  · rw [eval_equal, Option.some_inj]
    exact (equal_eq_true_iff _ _).mpr (List.Perm.swap "b" "a" [])

theorem c6_equal_multiset_semantics_witness :
    eval ["a"] ⟨["a", "b"], EqualsOperator⟩ = some false :=
  c6_equal_multiset_semantics.2.2.1 ["a"] ["a", "b"] (by decide)

/-- C8 as stated is false: the operator enumeration is not validated at
construction time and the evaluation path is not panic-free — a
`FilterParams` carrying the out-of-enumeration operator `"UNKNOWN_OP"` is
freely constructible, and `eval` hits the panicking default branch
(modelled as `none`) at evaluation time. -/
theorem c8_counterexample :
    eval ["a"] ⟨["a"], "UNKNOWN_OP"⟩ = none :=
  eval_unknown ["a"] ⟨["a"], "UNKNOWN_OP"⟩ (by decide)

/-- C8 amended: the operator enumeration
IN, NOT_IN, EQUAL, NOT_EQUAL, EXISTS, DOES_NOT_EXIST, ANY is closed in the
sense that `eval` is total (returns a boolean, never panics) exactly on these
seven operators; any operator value outside the enumeration is a fatal
programming-contract violation — a panic raised at evaluation time, not a
recoverable error — and nothing validates the operator when the
`RuleFilter`'s filters are constructed. -/
theorem c8_operator_enumeration :
    (∀ (ruleArgs : List String) (params : FilterParams),
      params.OperatorName ∈ [InOperator, NotInOperator, EqualsOperator, NotEqualOperator,
        ExistsOperator, DoesNotExistOperator, AnyOperator] →
      (eval ruleArgs params).isSome = true) ∧
    (∀ (ruleArgs : List String) (params : FilterParams),
      params.OperatorName ∉ [InOperator, NotInOperator, EqualsOperator, NotEqualOperator,
        ExistsOperator, DoesNotExistOperator, AnyOperator] →
      eval ruleArgs params = none) := by
  constructor
  · intro ruleArgs params h
    obtain ⟨Args, op⟩ := params
    simp only [List.mem_cons, List.not_mem_nil, or_false] at h
    rcases h with h | h | h | h | h | h | h <;> subst h <;>
      simp [eval, InOperator, NotInOperator, EqualsOperator, NotEqualOperator,
        ExistsOperator, DoesNotExistOperator, AnyOperator]
  · exact fun ruleArgs params h => eval_unknown ruleArgs params h

theorem c8_operator_enumeration_witness :
    (eval ["x"] ⟨[], InOperator⟩).isSome = true :=
  c8_operator_enumeration.1 ["x"] ⟨[], InOperator⟩ (by decide)

/-- C10: a `RuleFilter` whose permission type is outside the enumeration
all / namespaced / clusterScoped selects no permissions
(`GetRelevantPermissions` returns the empty list) and consequently
`FilterRules` returns no rules and no panic — the unknown permission type is
silently treated as selecting nothing. -/
theorem c10_unknown_permission_type (rf : RuleFilter) (cp : CSVPermissions)
    (h : rf.PermissionType ∉ [AllPermissionType, NameSpacedPermissionType, ClusterPermissionType]) :
    rf.GetRelevantPermissions cp = [] ∧ cp.FilterRules rf = some [] := by
  simp only [List.mem_cons, List.mem_singleton, not_or] at h
  obtain ⟨h1, h2, h3⟩ := h
  have hg : rf.GetRelevantPermissions cp = [] := by
    simp [RuleFilter.GetRelevantPermissions, h1, h2, h3]
  exact ⟨hg, by simp [CSVPermissions.FilterRules, hg, filterPermsRules]⟩

theorem c10_unknown_permission_type_witness :
    RuleFilter.GetRelevantPermissions ⟨"bogus", []⟩ ⟨[⟨"sa", [⟨⟨[], [], [], [], []⟩, "r"⟩]⟩], []⟩ = [] ∧
    CSVPermissions.FilterRules ⟨[⟨"sa", [⟨⟨[], [], [], [], []⟩, "r"⟩]⟩], []⟩ ⟨"bogus", []⟩ = some [] :=
  c10_unknown_permission_type ⟨"bogus", []⟩ ⟨[⟨"sa", [⟨⟨[], [], [], [], []⟩, "r"⟩]⟩], []⟩ (by decide)

/-! ## Lemmas about the concurrent extractor -/

theorem firstErr_ne_none {B : Type} (fetch : String → Except ExtractorErr B)
    (imgs : List String) :
    ∀ (order : List Nat) (i : Nat), i ∈ order → ∀ img, imgs[i]? = some img →
    ∀ e, fetch img = .error e → firstErr fetch imgs order ≠ none := by
  intro order
  induction order with
  | nil => intro i hi; simp at hi
  | cons j rest ih =>
    intro i hi img himg e he
    rcases List.mem_cons.mp hi with hij | hirest
    · subst hij
      simp only [firstErr, himg, he]
      exact fun hcon => Option.noConfusion hcon
    · cases hj : imgs[j]? with
      | none =>
        simp only [firstErr, hj]
        exact ih i hirest img himg e he
      | some img' =>
        cases hfj : fetch img' with
        | error e' =>
          simp only [firstErr, hj, hfj]
          exact fun hcon => Option.noConfusion hcon
        | ok b =>
          simp only [firstErr, hj, hfj]
          exact ih i hirest img himg e he

theorem firstErr_eq_none_of_ok {B : Type} (fetch : String → Except ExtractorErr B)
    (imgs : List String) :
    ∀ (order : List Nat),
    (∀ i ∈ order, ∀ img, imgs[i]? = some img → ∃ b, fetch img = .ok b) →
    firstErr fetch imgs order = none := by
  intro order
  induction order with
  | nil => intro _; rfl
  | cons j rest ih =>
    intro h
    cases hj : imgs[j]? with
    | none =>
      simp only [firstErr, hj]
      exact ih fun i hi img him => h i (List.mem_cons_of_mem j hi) img him
    | some img =>
      obtain ⟨b, hb⟩ := h j (List.mem_cons_self j rest) img hj
      simp only [firstErr, hj, hb]
      exact ih fun i hi img' him => h i (List.mem_cons_of_mem j hi) img' him

theorem foldl_extractStep_length {B : Type} (fetch : String → Except ExtractorErr B)
    (imgs : List String) :
    ∀ (order : List Nat) (acc : List (Option B)),
      (order.foldl (extractStep fetch imgs) acc).length = acc.length := by
  intro order
  induction order with
  | nil => intro acc; rfl
  | cons j rest ih =>
    intro acc
    rw [List.foldl_cons, ih]
    unfold extractStep
    split
    · rfl
    · split
      · exact List.length_set acc j _
      · rfl

theorem foldl_extractStep_getElem {B : Type} (fetch : String → Except ExtractorErr B)
    (imgs : List String)
    (hok : ∀ i (h : i < imgs.length), ∃ b, fetch imgs[i] = .ok b) :
    ∀ (order : List Nat) (acc : List (Option B)), acc.length = imgs.length →
    ∀ j (hj : j < imgs.length),
      (order.foldl (extractStep fetch imgs) acc)[j]? =
        if j ∈ order then some (fetch imgs[j] |>.toOption) else acc[j]? := by
  intro order
  induction order with
  | nil =>
    intro acc hacc j hj
    simp
  | cons i rest ih =>
    intro acc hacc j hj
    rw [List.foldl_cons]
    have hlen' : (extractStep fetch imgs acc i).length = imgs.length := by
      unfold extractStep
      split
      · exact hacc
      · split
        · rw [List.length_set]; exact hacc
        · exact hacc
    rw [ih (extractStep fetch imgs acc i) hlen' j hj]
    by_cases hjrest : j ∈ rest
    · rw [if_pos hjrest, if_pos (List.mem_cons_of_mem i hjrest)]
    · by_cases hji : j = i
      · subst hji
        have himg : imgs[j]? = some imgs[j] := List.getElem?_eq_getElem hj
        obtain ⟨b, hb⟩ := hok j hj
        have hstep : extractStep fetch imgs acc j = acc.set j (some b) := by
          simp only [extractStep, himg, hb]
        rw [if_neg hjrest, if_pos (List.mem_cons_self j rest), hstep, List.getElem?_set]
        simp [hacc, hj, hb, Except.toOption]
      · have hnotin : j ∉ i :: rest := fun hmem =>
          (List.mem_cons.mp hmem).elim (fun h => hji h) (fun h => hjrest h)
        rw [if_neg hjrest, if_neg hnotin]
        unfold extractStep
        split
        · rfl
        · split
          · rw [List.getElem?_set, if_neg (Ne.symm hji)]
          · rfl

/-! ## Claim theorems about the concurrent extractor -/

/-- C5: when every fetch succeeds, `extractBundlesConcurrent` returns an
index-aligned bundle sequence — slot `i` holds exactly the bundle fetched
from input reference `i` — for every goroutine completion order (any
permutation of the slot indices). -/
theorem c5_index_aligned {B : Type} (fetch : String → Except ExtractorErr B)
    (imgs : List String) (order : List Nat)
    (hperm : order.Perm (List.range imgs.length))
    (hok : ∀ i (h : i < imgs.length), ∃ b, fetch imgs[i] = .ok b) :
    ∃ bs : List (Option B),
      extractBundlesConcurrent fetch order imgs = (some bs, none) ∧
      bs.length = imgs.length ∧
      ∀ i (h : i < imgs.length) (b : B), fetch imgs[i] = .ok b → bs[i]? = some (some b) := by
  have hnone : firstErr fetch imgs order = none := by
    apply firstErr_eq_none_of_ok
    intro i hi img himg
    have hilt : i < imgs.length := by
      have : i ∈ List.range imgs.length := (hperm.mem_iff).mp hi
      exact List.mem_range.mp this
    have : imgs[i]? = some imgs[i] := List.getElem?_eq_getElem hilt
    rw [this] at himg
    obtain ⟨b, hb⟩ := hok i hilt
    exact ⟨b, by rw [← Option.some_inj.mp himg]; exact hb⟩
  refine ⟨writeSlots fetch imgs order, ?_, ?_, ?_⟩
  · unfold extractBundlesConcurrent
    rw [hnone]
  · unfold writeSlots
    rw [foldl_extractStep_length, List.length_replicate]
  · intro i hi b hb
    unfold writeSlots
    rw [foldl_extractStep_getElem fetch imgs hok order _ (List.length_replicate _ _) i hi]
    have hmem : i ∈ order := (hperm.mem_iff).mpr (List.mem_range.mpr hi)
    simp [hmem, hb, Except.toOption]

theorem c5_index_aligned_witness :
    extractBundlesConcurrent (fun s => (Except.ok s : Except ExtractorErr String))
      [1, 0] ["x", "y"] = (some [some "x", some "y"], none) := by
  obtain ⟨bs, h1, -, -⟩ :=
    c5_index_aligned (fun s => (Except.ok s : Except ExtractorErr String)) ["x", "y"] [1, 0]
      (by decide) (fun i h => ⟨(["x", "y"] : List String)[i], rfl⟩)
  have hbs : (some bs, (none : Option ExtractorErr))
      = (some [some "x", some "y"], (none : Option ExtractorErr)) := by
    rw [← h1]
    rfl
  rw [h1, hbs]

/-- C2: if fetching any reference fails, the concurrent extraction call
returns the error of the first failing unit (in completion order) paired
with a nil bundle list — no partial subset of successfully fetched bundles
is ever returned — and `ExtractBundles` / `ExtractAllBundles`, which delegate
to it after validation and image-list resolution, return that same error with
a nil list. -/
theorem c2_first_error_no_partial {B : Type} (fetch : String → Except ExtractorErr B)
    (imgs : List String) (order : List Nat)
    (hperm : order.Perm (List.range imgs.length))
    (hfail : ∃ i, ∃ _ : i < imgs.length, ∃ e, fetch imgs[i] = .error e) :
    ∃ e, firstErr fetch imgs order = some e ∧
      extractBundlesConcurrent fetch order imgs = (none, some e) ∧
      (∀ (parseImageRef : String → Except String Unit)
         (extractBundleImages : String → String → Except ExtractorErr (List String))
         (indexImage pkgName : String),
        validateIndexImage parseImageRef indexImage = none → pkgName ≠ "" →
        extractBundleImages indexImage pkgName = .ok imgs →
        ExtractBundles parseImageRef extractBundleImages fetch order indexImage pkgName
          = (none, some e)) ∧
      (∀ (parseImageRef : String → Except String Unit)
         (extractAllBundleImages : String → Except ExtractorErr (List String))
         (indexImage : String),
        validateIndexImage parseImageRef indexImage = none →
        extractAllBundleImages indexImage = .ok imgs →
        ExtractAllBundles parseImageRef extractAllBundleImages fetch order indexImage
          = (none, some e)) := by
  obtain ⟨i, hi, e, he⟩ := hfail
  have hmem : i ∈ order := (hperm.mem_iff).mpr (List.mem_range.mpr hi)
  have hne : firstErr fetch imgs order ≠ none :=
    firstErr_ne_none fetch imgs order i hmem imgs[i] (List.getElem?_eq_getElem hi) e he
  cases hfe : firstErr fetch imgs order with
  | none => exact absurd hfe hne
  | some e' =>
    have hconc : extractBundlesConcurrent fetch order imgs = (none, some e') := by
      unfold extractBundlesConcurrent
      rw [hfe]
    refine ⟨e', rfl, hconc, ?_, ?_⟩
    · intro parseImageRef extractBundleImages indexImage pkgName hv hpkg himgs
      unfold ExtractBundles
      rw [hv]
      simp [hpkg, himgs, hconc]
    · intro parseImageRef extractAllBundleImages indexImage hv himgs
      unfold ExtractAllBundles
      rw [hv]
      simp [himgs, hconc]

theorem c2_first_error_no_partial_witness :
    extractBundlesConcurrent
      (fun s => if s = "x" then Except.ok (1 : Nat) else Except.error (.extractFailure "boom"))
      [1, 0] ["x", "y"] = (none, some (.extractFailure "boom")) := by
  obtain ⟨e, h1, h2, -, -⟩ :=
    c2_first_error_no_partial
      (fun s => if s = "x" then Except.ok (1 : Nat) else Except.error (.extractFailure "boom"))
      ["x", "y"] [1, 0] (by decide) ⟨1, by decide, .extractFailure "boom", rfl⟩
  have hval : some e = some (ExtractorErr.extractFailure "boom") := by
    rw [← h1]
    rfl
  exact (Option.some_inj.mp hval) ▸ h2

/-- C4: the validation gate of `ExtractBundles` and `ExtractAllBundles` runs
before any extraction work: an empty index-image reference yields an error; a
tagless reference (no ':' in the string) yields Go's `(nil, nil)` — the nil
slice being the empty bundle list — and no error; a reference the image
parser rejects yields an error. In particular `"registry.example/addon"`
yields the empty-list/no-error skip regardless of the collaborators. -/
theorem c4_validation_gate {B : Type} (parseImageRef : String → Except String Unit)
    (extractBundleImages : String → String → Except ExtractorErr (List String))
    (extractAllBundleImages : String → Except ExtractorErr (List String))
    (fetch : String → Except ExtractorErr B) (order : List Nat) :
    (∀ pkgName, ExtractBundles parseImageRef extractBundleImages fetch order "" pkgName
      = (none, some .emptyIndexImage)) ∧
    (ExtractAllBundles parseImageRef extractAllBundleImages fetch order ""
      = (none, some .emptyIndexImage)) ∧
    (∀ indexImage pkgName, indexImage ≠ "" → isTaglessImage indexImage = true →
      ExtractBundles parseImageRef extractBundleImages fetch order indexImage pkgName
        = (none, none)) ∧
    (∀ indexImage, indexImage ≠ "" → isTaglessImage indexImage = true →
      ExtractAllBundles parseImageRef extractAllBundleImages fetch order indexImage
        = (none, none)) ∧
    (∀ indexImage pkgName msg, indexImage ≠ "" → isTaglessImage indexImage = false →
      parseImageRef indexImage = .error msg →
      ExtractBundles parseImageRef extractBundleImages fetch order indexImage pkgName
        = (none, some (.parseFailure msg))) ∧
    (∀ indexImage msg, indexImage ≠ "" → isTaglessImage indexImage = false →
      parseImageRef indexImage = .error msg →
      ExtractAllBundles parseImageRef extractAllBundleImages fetch order indexImage
        = (none, some (.parseFailure msg))) ∧
    (∀ pkgName, ExtractBundles parseImageRef extractBundleImages fetch order
      "registry.example/addon" pkgName = (none, none)) := by
  refine ⟨?_, ?_, ?_, ?_, ?_, ?_, ?_⟩
  · intro pkgName
    simp [ExtractBundles, validateIndexImage]
  · simp [ExtractAllBundles, validateIndexImage]
  · intro indexImage pkgName hne htag
    simp [ExtractBundles, validateIndexImage, hne, htag]
  · intro indexImage hne htag
    simp [ExtractAllBundles, validateIndexImage, hne, htag]
  · intro indexImage pkgName msg hne htag hparse
    simp [ExtractBundles, validateIndexImage, hne, htag, hparse]
  · intro indexImage msg hne htag hparse
    simp [ExtractAllBundles, validateIndexImage, hne, htag, hparse]
  · intro pkgName
    have htag : isTaglessImage "registry.example/addon" = true := by decide
    simp [ExtractBundles, validateIndexImage, htag]

theorem c4_validation_gate_witness :
    ExtractBundles (B := Unit) (fun _ => Except.error "bad") (fun _ _ => Except.ok [])
      (fun _ => Except.ok ()) [] "a:b" "pkg" = (none, some (.parseFailure "bad")) :=
  (c4_validation_gate (fun _ => Except.error "bad") (fun _ _ => Except.ok [])
    (fun _ => Except.ok []) (fun _ => Except.ok ()) []).2.2.2.2.1
    "a:b" "pkg" "bad" (by decide) (by decide) rfl

/-! ## Claim theorem about the CLI filter composition -/

/-- C3: `generateFilter` implements exactly the documented precedence: all
three inputs empty returns no filter (`none`); a non-empty disabled list
yields `Not(FilterCodes(disabled))`; a non-empty enabled list replaces any
disabled-derived filter entirely with `FilterCodes(enabled)` (last writer on
the filter variable); a non-empty stages list is always intersected via
`And(currentFilter, FilterStages(stages))` with whatever code-based filter
resulted. -/
theorem c3_generate_filter_precedence
    (parseCodeList : String → Except String (List Nat))
    (parseStageList : String → Except String (List String))
    (disabled enabled stages : String) (cd ce : List Nat) (ss : List String)
    (hd : disabled ≠ "" → parseCodeList disabled = .ok cd)
    (he : enabled ≠ "" → parseCodeList enabled = .ok ce)
    (hs : stages ≠ "" → parseStageList stages = .ok ss) :
    generateFilter parseCodeList parseStageList disabled enabled stages =
      if disabled = "" ∧ enabled = "" ∧ stages = "" then .ok none
      else
        .ok (some (
          let base : VFilter :=
            if enabled ≠ "" then .filterCodes ce
            else if disabled ≠ "" then .not (.filterCodes cd)
            else .noFilter
          if stages ≠ "" then .and base (.filterStages ss) else base)) := by
  by_cases hde : disabled = "" <;> by_cases hee : enabled = "" <;> by_cases hse : stages = ""
  · simp [generateFilter, hde, hee, hse]
  · simp [generateFilter, hde, hee, hse, hs hse]
  · simp [generateFilter, hde, hee, hse, he hee]
  · simp [generateFilter, hde, hee, hse, he hee, hs hse]
  · simp [generateFilter, hde, hee, hse, hd hde]
  · simp [generateFilter, hde, hee, hse, hd hde, hs hse]
  · simp [generateFilter, hde, hee, hse, hd hde, he hee]
  · simp [generateFilter, hde, hee, hse, hd hde, he hee, hs hse]

theorem c3_generate_filter_precedence_witness :
    generateFilter (fun _ => Except.ok [1]) (fun _ => Except.ok ["pre"]) "AM0001" "" "pre"
      = Except.ok (some (.and (.not (.filterCodes [1])) (.filterStages ["pre"]))) := by
  have h := c3_generate_filter_precedence (fun _ => Except.ok [1]) (fun _ => Except.ok ["pre"])
    "AM0001" "" "pre" [1] [1] ["pre"] (fun _ => rfl) (fun _ => rfl) (fun _ => rfl)
  simpa using h

/-! ## Lemmas about the am0015 validator -/

theorem glbLoop_max {B C : Type} (csvOf : B → Except String C)
    (getVer : C → Except String String) (cmp : String → String → Int)
    (v : B → String) (lt : String → String → Prop) (L : List B)
    (hver : ∀ b ∈ L, getVersionGo csvOf getVer b = .ok (v b))
    (hdist : ∀ a ∈ L, ∀ b ∈ L, a ≠ b → v a ≠ v b)
    (hcmp : ∀ a ∈ L, ∀ b ∈ L, (cmp (v a) (v b) = 1 ↔ lt (v b) (v a)))
    (htrans : ∀ a ∈ L, ∀ b ∈ L, ∀ c ∈ L, lt (v a) (v b) → lt (v b) (v c) → lt (v a) (v c))
    (hconn : ∀ a ∈ L, ∀ b ∈ L, v a ≠ v b → lt (v a) (v b) ∨ lt (v b) (v a)) :
    ∀ (rest : List B) (latest : B), (∀ x ∈ latest :: rest, x ∈ L) →
    ∃ m, glbLoop (getVersionGo csvOf getVer) cmp latest rest = (some m, none) ∧
      m ∈ latest :: rest ∧ ∀ b ∈ latest :: rest, b = m ∨ lt (v b) (v m) := by
  intro rest
  induction rest with
  | nil =>
    intro latest hsub
    refine ⟨latest, rfl, List.mem_cons_self latest [], ?_⟩
    intro b hb
    left
    simpa using hb
  | cons bundle rest' ih =>
    intro latest hsub
    have hlatestL : latest ∈ L := hsub latest (List.mem_cons_self latest _)
    have hbundleL : bundle ∈ L :=
      hsub bundle (List.mem_cons_of_mem latest (List.mem_cons_self bundle _))
    have hv1 : getVersionGo csvOf getVer bundle = .ok (v bundle) := hver bundle hbundleL
    have hv2 : getVersionGo csvOf getVer latest = .ok (v latest) := hver latest hlatestL
    by_cases hc : cmp (v bundle) (v latest) = 1
    · have hlt : lt (v latest) (v bundle) := (hcmp bundle hbundleL latest hlatestL).mp hc
      obtain ⟨m, heq, hm, hmax⟩ :=
        ih bundle (fun x hx => hsub x (List.mem_cons_of_mem latest hx))
      have hmL : m ∈ L := hsub m (List.mem_cons_of_mem latest hm)
      refine ⟨m, ?_, List.mem_cons_of_mem latest hm, ?_⟩
      · simp only [glbLoop, hv1, hv2, if_pos hc]
        exact heq
      · intro b hb
        rcases List.mem_cons.mp hb with hbl | hbrest
        · subst hbl
          rcases hmax bundle (List.mem_cons_self bundle _) with hbm | hblt
          · right
            rw [← hbm]
            exact hlt
          · right
            exact htrans b hlatestL bundle hbundleL m hmL hlt hblt
        · exact hmax b hbrest
    · have hsub' : ∀ x ∈ latest :: rest', x ∈ L := by
        intro x hx
        rcases List.mem_cons.mp hx with h | h
        · exact h ▸ hlatestL
        · exact hsub x (List.mem_cons_of_mem latest (List.mem_cons_of_mem bundle h))
      obtain ⟨m, heq, hm, hmax⟩ := ih latest hsub'
      have hmL : m ∈ L := hsub' m hm
      have hgoal_eq : glbLoop (getVersionGo csvOf getVer) cmp latest (bundle :: rest')
          = (some m, none) := by
        simp only [glbLoop, hv1, hv2, if_neg hc]
        exact heq
      have hmem : m ∈ latest :: bundle :: rest' := by
        rcases List.mem_cons.mp hm with h | h
        · exact h ▸ List.mem_cons_self latest _
        · exact List.mem_cons_of_mem latest (List.mem_cons_of_mem bundle h)
      refine ⟨m, hgoal_eq, hmem, ?_⟩
      have hblt : bundle = latest ∨ lt (v bundle) (v latest) := by
        by_cases hbl : bundle = latest
        · exact Or.inl hbl
        · right
          rcases hconn bundle hbundleL latest hlatestL (hdist bundle hbundleL latest hlatestL hbl)
            with h | h
          · exact h
          · exact absurd ((hcmp bundle hbundleL latest hlatestL).mpr h) hc
      intro x hx
      rcases List.mem_cons.mp hx with hxl | hxrest
      · exact hxl ▸ hmax latest (List.mem_cons_self latest rest')
      · rcases List.mem_cons.mp hxrest with hxb | hxr
        · subst hxb
          rcases hblt with hbeq | hblt'
          · rw [hbeq]
            exact hmax latest (List.mem_cons_self latest rest')
          · rcases hmax latest (List.mem_cons_self latest rest') with hlm | hlm
            · right
              rw [← hlm]
              exact hblt'
            · right
              exact htrans x hbundleL latest hlatestL m hmL hblt' hlm
        · exact hmax x (List.mem_cons_of_mem latest hxr)

/-! ## Claim theorems about the am0015 validator -/

/-- C9: on a non-empty bundle list whose bundles all yield a version and have
pairwise distinct versions, `getLatestBundle` returns (without error or
panic) a bundle whose version is maximal with respect to the strict order the
version comparator decides; in particular on the two bundles carrying
versions 1.0.0 and 1.2.0 (under the modelled `semver.Compare`) it selects the
1.2.0 bundle. -/
theorem c9_latest_bundle_semver_max :
    (∀ (B C : Type) (csvOf : B → Except String C) (getVer : C → Except String String)
       (cmp : String → String → Int) (v : B → String) (lt : String → String → Prop)
       (bundles : List B),
      bundles ≠ [] →
      (∀ b ∈ bundles, getVersionGo csvOf getVer b = .ok (v b)) →
      (∀ a ∈ bundles, ∀ b ∈ bundles, a ≠ b → v a ≠ v b) →
      (∀ a ∈ bundles, ∀ b ∈ bundles, (cmp (v a) (v b) = 1 ↔ lt (v b) (v a))) →
      (∀ a ∈ bundles, ∀ b ∈ bundles, ∀ c ∈ bundles,
        lt (v a) (v b) → lt (v b) (v c) → lt (v a) (v c)) →
      (∀ a ∈ bundles, ∀ b ∈ bundles, v a ≠ v b → lt (v a) (v b) ∨ lt (v b) (v a)) →
      ∃ m, getLatestBundle (getVersionGo csvOf getVer) cmp bundles = .result (some m, none) ∧
        m ∈ bundles ∧ ∀ b ∈ bundles, b = m ∨ lt (v b) (v m)) ∧
    getLatestBundle
      (getVersionGo (fun s : String => (Except.ok s : Except String String))
        (fun s : String => (Except.ok s : Except String String)))
      semverCmp ["1.0.0", "1.2.0"] = .result (some "1.2.0", none) := by
  constructor
  · intro B C csvOf getVer cmp v lt bundles hne hver hdist hcmp htrans hconn
    match bundles, hne with
    | [b], _ =>
      refine ⟨b, rfl, List.mem_cons_self b [], ?_⟩
      intro x hx
      left
      simpa using hx
    | b :: b2 :: rest, _ =>
      obtain ⟨m, heq, hm, hmax⟩ :=
        glbLoop_max csvOf getVer cmp v lt (b :: b2 :: rest) hver hdist hcmp htrans hconn
          (b2 :: rest) b (fun x hx => hx)
      exact ⟨m, by rw [show getLatestBundle (getVersionGo csvOf getVer) cmp (b :: b2 :: rest)
        = .result (glbLoop (getVersionGo csvOf getVer) cmp b (b2 :: rest)) from rfl, heq],
        hm, hmax⟩
  · rfl

theorem c9_latest_bundle_semver_max_witness :
    getLatestBundle
      (getVersionGo (fun s : String => (Except.ok s : Except String String))
        (fun s : String => (Except.ok s : Except String String)))
      semverCmp ["1.0.0", "1.2.0"] = .result (some "1.2.0", none) := by
  obtain ⟨m, h1, -, -⟩ := c9_latest_bundle_semver_max.1 String String
    (fun s => Except.ok s) (fun s => Except.ok s) semverCmp
    (fun s => "v" ++ s) (fun a b => semverCmp b a = 1) ["1.0.0", "1.2.0"]
    (by decide) (fun b _ => rfl) (by decide) (fun a _ b _ => Iff.rfl) (by decide) (by decide)
  have hm : RunOutcome.result ((some m, none) : Option String × Option String)
      = .result (some "1.2.0", none) := by
    rw [← h1]
    rfl
  rw [h1, hm]

/-- C7: the `Result` values built in `CSVDeployment.Run`'s error branches are
discarded, not returned, and never determine the validator's outcome: when
`getLatestBundle` returns an error the constructed `Fail` result is dropped
and the nil bundle is dereferenced (a panic, not that `Fail` result); when
`ClusterServiceVersion` returns an error the constructed `Error` result is
dropped and the nil CSV is dereferenced (a panic, not that `Error` result);
when `json.Unmarshal` returns an error the constructed `Error` result is
dropped and execution continues to the deployment loop, whose lint messages
alone decide the outcome. -/
theorem c7_discarded_error_branch_results {B C SpecT D : Type}
    (csvOf : B → Except String C) (getVer : C → Except String String)
    (cmp : String → String → Int) (unmarshal : C → SpecT × Option String)
    (deploymentSpecs : SpecT → List D) (lint : D → List String) (bundles : List B) :
    (∀ e, getLatestBundle (getVersionGo csvOf getVer) cmp bundles = .result (none, some e) →
      csvDeploymentRun csvOf getVer cmp unmarshal deploymentSpecs lint bundles = .panics) ∧
    (∀ b e, getLatestBundle (getVersionGo csvOf getVer) cmp bundles = .result (some b, none) →
      csvOf b = .error e →
      csvDeploymentRun csvOf getVer cmp unmarshal deploymentSpecs lint bundles = .panics) ∧
    (∀ b csv spec e,
      getLatestBundle (getVersionGo csvOf getVer) cmp bundles = .result (some b, none) →
      csvOf b = .ok csv → unmarshal csv = (spec, some e) →
      csvDeploymentRun csvOf getVer cmp unmarshal deploymentSpecs lint bundles =
        .result (if ((deploymentSpecs spec).flatMap lint).length > 0
                 then .fail ((deploymentSpecs spec).flatMap lint) else .success)) := by
  refine ⟨?_, ?_, ?_⟩
  · intro e h
    simp only [csvDeploymentRun, h]
  · intro b e h hc
    simp only [csvDeploymentRun, h, hc]
  · intro b csv spec e h hc hu
    simp only [csvDeploymentRun, h, hc, hu]

theorem c7_discarded_error_branch_results_witness :
    csvDeploymentRun (fun _ : Unit => (Except.ok () : Except String Unit))
      (fun _ : Unit => (Except.ok "1.0.0" : Except String String)) semverCmp
      (fun _ : Unit => ((), some "bad json")) (fun _ : Unit => ([] : List Unit))
      (fun _ : Unit => ([] : List String)) [()] = .result .success := by
  have h := (c7_discarded_error_branch_results
    (fun _ : Unit => (Except.ok () : Except String Unit))
    (fun _ : Unit => (Except.ok "1.0.0" : Except String String)) semverCmp
    (fun _ : Unit => ((), some "bad json")) (fun _ : Unit => ([] : List Unit))
    (fun _ : Unit => ([] : List String)) [()]).2.2 () () () "bad json" rfl rfl rfl
  simpa using h

end AddonMetadata
